import Mathlib

/-!
Shallow embedding of the Film-Search movie service
(`src/movie_service.py`) in Lean 4, together with theorems checking the
natural-language specification against it.

Modelling conventions:
- Python `str` values are Lean `String`s; character-level operations work
  on `String.data` (`List Char`), so everything is executable and
  kernel-reducible.
- Python `float` is idealised as `ℚ` (exact rational arithmetic); the
  binary rounding of IEEE doubles is not modelled.
- A movie record is a `List String`, exactly as in the Python code
  (`list[list[str]]`).
- File I/O is modelled by passing the file's lines (for reads) or by
  returning the written content (for writes).  `FileNotFoundError` and
  `IOError` are therefore outside the model; all other control flow of
  the source, including which exceptions are raised and which `except`
  clauses catch them, is modelled faithfully.
- A Python function that can return a value, return `None`, or let an
  exception escape is modelled with `PyResult`; exceptions raised inside
  a `try` block are threaded with `Except PyErr` and dispatched at the
  position of the source's `except` clauses.
-/

/-- The Python exceptions relevant to `movie_service.py`'s control flow.
(`KeyError` from `actors_max[actor]` cannot occur: every key looked up in
the second loop of `top_n` was inserted by the first loop, which splits
the same field of the same records; the dict is modelled as a total
function accordingly.) -/
inductive PyErr where
  | valueError
  | indexError
  | zeroDivisionError
  deriving DecidableEq, Repr

/-- Outcome of calling one of the Python functions: a normal return
value, the distinguished `None` return used for reported failures, or an
exception that escapes to the caller uncaught. -/
inductive PyResult (α : Type) where
  | ok : α → PyResult α
  | retNone : PyResult α
  | uncaught : PyErr → PyResult α
  deriving DecidableEq

/-- The characters stripped by Python's `str.strip()` (ASCII whitespace;
the data handled by the service is ASCII). -/
def isPyWs (c : Char) : Bool :=
  c = ' ' || c = '\t' || c = '\n' || c = '\r' || c = '\x0b' || c = '\x0c'

/-- Python `str.strip()`. -/
def pyStrip (s : String) : String :=
  String.mk (((s.data.dropWhile isPyWs).reverse.dropWhile isPyWs).reverse)

/-- Python `str.split(sep)` for a one-character separator `sep`:
`"".split(sep) = [""]`, empty chunks are kept. -/
def split1 (sep : Char) : List Char → List (List Char)
  | [] => [[]]
  | c :: rest =>
    if c = sep then [] :: split1 sep rest
    else
      match split1 sep rest with
      | [] => [[c]]
      | g :: gs => (c :: g) :: gs

/-- Python `str.split(sep)` for a two-character separator `a ++ b`,
scanning left to right for non-overlapping occurrences. -/
def split2 (a b : Char) : List Char → List (List Char)
  | [] => [[]]
  | [c] => [[c]]
  | c :: d :: rest =>
    if c = a ∧ d = b then [] :: split2 a b rest
    else
      match split2 a b (d :: rest) with
      | [] => [[c]]
      | g :: gs => (c :: g) :: gs

/-- Python `line.split(';')` on strings. -/
def pySplitSemi (s : String) : List String :=
  (split1 ';' s.data).map (fun g => String.mk g)

/-- Python `s.split(',')` on strings (used for genre tags). -/
def pySplitComma (s : String) : List String :=
  (split1 ',' s.data).map (fun g => String.mk g)

/-- Python `s.split(", ")` on strings (used for actor lists). -/
def pySplitCS (s : String) : List String :=
  (split2 ',' ' ' s.data).map (fun g => String.mk g)

/-- Numeric value of a digit character. -/
def digitVal (c : Char) : ℕ := c.toNat - '0'.toNat

/-- Value of a digit string, most significant digit first. -/
def digitsVal (cs : List Char) : ℕ :=
  cs.foldl (fun acc c => 10 * acc + digitVal c) 0

/-- Python `int(s)` on an unsigned body: all characters must be digits
and there must be at least one.  (Digit-group underscores are not
modelled.) -/
def pyIntUnsigned (cs : List Char) : Option ℕ :=
  if cs ≠ [] ∧ cs.all Char.isDigit then some (digitsVal cs) else none

/-- Python `int(s)`: optional surrounding whitespace (already removed by
`pyStrip`), optional sign, then digits; `none` models `ValueError`. -/
def pyInt (s : String) : Option ℤ :=
  match (pyStrip s).data with
  | '+' :: ds => (pyIntUnsigned ds).map (fun n => (n : ℤ))
  | '-' :: ds => (pyIntUnsigned ds).map (fun n => -(n : ℤ))
  | ds => (pyIntUnsigned ds).map (fun n => (n : ℤ))

/-- Exponent suffix of a Python float literal: either nothing, or
`e`/`E`, an optional sign and at least one digit. -/
def pyFloatExp : List Char → Option ℤ
  | [] => some 0
  | c :: rest =>
    if c = 'e' ∨ c = 'E' then
      match rest with
      | '+' :: ds => (pyIntUnsigned ds).map (fun n => (n : ℤ))
      | '-' :: ds => (pyIntUnsigned ds).map (fun n => -(n : ℤ))
      | ds => (pyIntUnsigned ds).map (fun n => (n : ℤ))
    else none

/-- Unsigned body of Python `float(s)`: digits, an optional point with
further digits, and an optional exponent; at least one digit must be
present in the mantissa.  (`inf`/`nan` are not modelled.) -/
def pyFloatUnsigned (cs : List Char) : Option ℚ :=
  let intPart := cs.takeWhile Char.isDigit
  let rest1 := cs.dropWhile Char.isDigit
  match rest1 with
  | '.' :: rest2 =>
    let fracPart := rest2.takeWhile Char.isDigit
    let rest3 := rest2.dropWhile Char.isDigit
    if intPart = [] ∧ fracPart = [] then none
    else
      (pyFloatExp rest3).map (fun e =>
        ((digitsVal intPart : ℚ) + (digitsVal fracPart : ℚ) / 10 ^ fracPart.length) * 10 ^ e)
  | _ =>
    if intPart = [] then none
    else (pyFloatExp rest1).map (fun e => (digitsVal intPart : ℚ) * 10 ^ e)

/-- Python `float(s)` idealised over `ℚ`; `none` models `ValueError`. -/
def pyFloat (s : String) : Option ℚ :=
  match (pyStrip s).data with
  | '+' :: ds => pyFloatUnsigned ds
  | '-' :: ds => (pyFloatUnsigned ds).map Neg.neg
  | ds => pyFloatUnsigned ds

/-- A movie record as held by the Python code: a list of field strings. -/
abbrev Rec := List String

/-- Parsing one line: `[i.strip() for i in line.split(';')]` (movie_service.py line 51). -/
def parseLine (line : String) : Rec :=
  (pySplitSemi line).map pyStrip

/-- Field `i` of a record, defaulting to `""` when absent; used to state
closed forms of the loops (inside them, a successful `m.get? i` always
supplies the value). -/
def fieldD (m : Rec) (i : ℕ) : String := m.getD i ""

/-- The loop body of `read_file` (movie_service.py lines 50-60) over the
data lines.  Field 6 is read *before* the field-count check, so a line
with fewer than 7 fields raises `IndexError`; a field count other than
12 and an unparseable year raise `ValueError`. -/
def readLoop (year : ℤ) : List String → Except PyErr (List Rec)
  | [] => .ok []
  | l :: ls =>
    let line := parseLine l
    match line.get? 6 with
    | none => .error .indexError
    | some filmYear =>
      if line.length ≠ 12 then .error .valueError
      else
        match pyInt filmYear with
        | none => .error .valueError
        | some fy =>
          if fy < year then readLoop year ls
          else (readLoop year ls).map (fun rs => line :: rs)

/-- The function `movie_service.read_file`, with the file's contents passed as its
list of lines (the first line is the header discarded by
`file.readline()`).  The `isinstance` checks hold by typing; the year
sign check precedes everything; `except ValueError` turns a
`ValueError` into the `None` return while `IndexError` escapes
uncaught.  (`FileNotFoundError` is outside the model: the file's
contents are the input.) -/
def read_file (fileLines : List String) (year : ℤ) : PyResult (List Rec) :=
  if year < 0 then .retNone
  else
    match readLoop year (fileLines.drop 1) with
    | .ok rs => .ok rs
    | .error .valueError => .retNone
    | .error e => .uncaught e

/-- Sorting key of `movie_service.compare_rating` (lines 6-15): a tuple
of the negated composite score and the title. -/
def compare_rating (m : String × ℚ × ℚ) : ℚ × String :=
  (-(m.2.1 + m.2.2) / 2, m.1)

/-- Lexicographic code-point comparison of character lists: the order
Python uses for `str` comparison. -/
def charsLe : List Char → List Char → Bool
  | [], _ => true
  | _ :: _, [] => false
  | a :: as, b :: bs =>
    if a.toNat < b.toNat then true
    else if b.toNat < a.toNat then false
    else charsLe as bs

/-- Python `s <= t` on strings. -/
def pyStrLe (s t : String) : Bool := charsLe s.data t.data

/-- The "is at most" test on `compare_rating` keys under which Python's
`list.sort(key=compare_rating)` sorts: tuples compare lexicographically,
rationals first, then titles. -/
def keyLE (x y : String × ℚ × ℚ) : Bool :=
  if (compare_rating x).1 < (compare_rating y).1 then true
  else if (compare_rating y).1 < (compare_rating x).1 then false
  else pyStrLe (compare_rating x).2 (compare_rating y).2

/-- The relation `keyLE` in `Prop` form, for `List.insertionSort`. -/
def keyRel (x y : String × ℚ × ℚ) : Prop := keyLE x y = true

instance : DecidableRel keyRel := fun x y => instDecidableEqBool (keyLE x y) true

/-- Overwrite one key of a Python dict modelled as a total function. -/
def dictUpd (d : String → ℚ) (k : String) (v : ℚ) : String → ℚ :=
  fun a => if a = k then v else d a

/-- The inner loop of `top_n`'s first phase (movie_service.py lines
122-123): `actors_max[actor] = max(actors_max.get(actor, 0),
float(movie[8]))` for each actor of one movie. -/
def addMovieActors (d : String → ℚ) (actors : List String) (r : ℚ) : String → ℚ :=
  actors.foldl (fun d a => dictUpd d a (max (d a) r)) d

/-- First phase of `top_n` (lines 120-123): build the `actors_max` dict
over the *whole* input list.  `movie[5]` and `movie[8]` can raise
`IndexError`; `float(movie[8])` can raise `ValueError`; both are
evaluated for every movie because `movie[5].split(", ")` is never
empty. -/
def buildActorsMax : List Rec → (String → ℚ) → Except PyErr (String → ℚ)
  | [], d => .ok d
  | movie :: rest, d =>
    match movie.get? 5 with
    | none => .error .indexError
    | some actorsField =>
      match movie.get? 8 with
      | none => .error .indexError
      | some ratingField =>
        match pyFloat ratingField with
        | none => .error .valueError
        | some r => buildActorsMax rest (addMovieActors d (pySplitCS actorsField) r)

/-- Nonempty intersection of two Python sets built from tag lists:
`set(xs).intersection(set(ys))` is truthy iff some element is shared. -/
def tagsIntersect (xs ys : List String) : Bool :=
  xs.any (fun t => ys.contains t)

/-- The genre test of `top_n` (line 127) as a total predicate:
`not genre or set(genre.split(",")).intersection(set(movie[2].split(",")))`. -/
def genreMatch (genre : String) (m : Rec) : Bool :=
  genre = "" || tagsIntersect (pySplitComma genre) (pySplitComma (fieldD m 2))

/-- Second phase of `top_n` (lines 125-133): filter by genre and build
`(movie[1], float(movie[8]), sum(actors_values)/len(actors_values))`
triples.  Evaluation order follows the source: `movie[2]` is only read
when `genre` is non-empty (short-circuit of `not genre or ...`), then
`movie[5]`, `movie[1]`, `movie[8]`, the float conversion, and the
division, whose zero-divisor case raises `ZeroDivisionError`. -/
def scoreMovies (d : String → ℚ) (genre : String) : List Rec → Except PyErr (List (String × ℚ × ℚ))
  | [] => .ok []
  | m :: rest =>
    match (if genre = "" then Except.ok true
           else match m.get? 2 with
                | none => Except.error PyErr.indexError
                | some g2 => Except.ok (tagsIntersect (pySplitComma genre) (pySplitComma g2))) with
    | .error e => .error e
    | .ok false => scoreMovies d genre rest
    | .ok true =>
      match m.get? 5 with
      | none => .error .indexError
      | some actorsField =>
        let vs := (pySplitCS actorsField).map d
        match m.get? 1 with
        | none => .error .indexError
        | some title =>
          match m.get? 8 with
          | none => .error .indexError
          | some ratingField =>
            match pyFloat ratingField with
            | none => .error .valueError
            | some r =>
              if vs.length = 0 then .error .zeroDivisionError
              else (scoreMovies d genre rest).map
                (fun es => (title, r, vs.sum / (vs.length : ℚ)) :: es)

/-- Final projection of `top_n` (line 140): `(title, (rating + actor_avg)/2)`. -/
def finalEntry (m : String × ℚ × ℚ) : String × ℚ :=
  (m.1, (m.2.1 + m.2.2) / 2)

/-- The function `movie_service.top_n` (lines 71-141).  `n` is a natural number (the
source returns `None` for negative `n` before doing anything; that
input-validation branch is outside the typed model).  The `try` block
spans both phases; `except (IndexError, ZeroDivisionError)` turns those
two into the `None` return, while any other exception — in particular
the `ValueError` of `float` — escapes uncaught.  Python's stable
`list.sort(key=compare_rating)` is modelled by a stable insertion sort
under `keyRel`. -/
def top_n (data : List Rec) (genre : String) (n : ℕ) : PyResult (List (String × ℚ)) :=
  match (do
      let d ← buildActorsMax data (fun _ => 0)
      scoreMovies d genre data : Except PyErr (List (String × ℚ × ℚ))) with
  | .error .indexError => .retNone
  | .error .zeroDivisionError => .retNone
  | .error e => .uncaught e
  | .ok movies =>
    let sorted := List.insertionSort keyRel movies
    .ok ((sorted.take (if n = 0 then sorted.length else n)).map finalEntry)

theorem charsLe_total : ∀ s t, charsLe s t = true ∨ charsLe t s = true
  | [], _ => Or.inl rfl
  | _ :: _, [] => Or.inr rfl
  | a :: as, b :: bs => by
    simp only [charsLe]
    rcases Nat.lt_trichotomy a.toNat b.toNat with h | h | h
    · left; simp [h]
    · have h2 : ¬ a.toNat < b.toNat := by omega
      have h3 : ¬ b.toNat < a.toNat := by omega
      simpa [h2, h3] using charsLe_total as bs
    · right; simp [h]

theorem charsLe_trans : ∀ s t u, charsLe s t = true → charsLe t u = true → charsLe s u = true
  | [], _, _, _, _ => rfl
  | _ :: _, [], _, h1, _ => by simp [charsLe] at h1
  | _ :: _, _ :: _, [], _, h2 => by simp [charsLe] at h2
  | a :: as, b :: bs, c :: cs, h1, h2 => by
    simp only [charsLe] at h1 h2 ⊢
    split_ifs at h1 h2 ⊢ <;>
      first
        | rfl
        | omega
        | exact charsLe_trans as bs cs h1 h2

theorem pyStrLe_total (s t : String) : pyStrLe s t = true ∨ pyStrLe t s = true :=
  charsLe_total s.data t.data

theorem pyStrLe_trans {s t u : String} (h1 : pyStrLe s t = true) (h2 : pyStrLe t u = true) :
    pyStrLe s u = true :=
  charsLe_trans s.data t.data u.data h1 h2

theorem keyLE_iff (x y : String × ℚ × ℚ) :
    keyLE x y = true ↔
      ((compare_rating x).1 < (compare_rating y).1 ∨
        ((compare_rating x).1 = (compare_rating y).1 ∧
          pyStrLe (compare_rating x).2 (compare_rating y).2 = true)) := by
  unfold keyLE
  split_ifs with h1 h2
  · simp [h1]
  · constructor
    · intro h; cases h
    · rintro (h | ⟨h, _⟩)
      · exact absurd h (not_lt.mpr h2.le)
      · exact absurd h2 (not_lt.mpr h.le)
  · have heq : (compare_rating x).1 = (compare_rating y).1 := le_antisymm (not_lt.mp h2) (not_lt.mp h1)
    simp [heq, h1]

theorem keyRel_trans (a b c : String × ℚ × ℚ) (h1 : keyRel a b) (h2 : keyRel b c) : keyRel a c := by
  unfold keyRel at *
  rw [keyLE_iff] at h1 h2 ⊢
  rcases h1 with h1 | ⟨h1e, h1s⟩ <;> rcases h2 with h2 | ⟨h2e, h2s⟩
  · exact Or.inl (h1.trans h2)
  · exact Or.inl (h2e ▸ h1)
  · exact Or.inl (h1e ▸ h2)
  · exact Or.inr ⟨h1e.trans h2e, pyStrLe_trans h1s h2s⟩

theorem keyRel_total (a b : String × ℚ × ℚ) : keyRel a b ∨ keyRel b a := by
  unfold keyRel
  rw [keyLE_iff, keyLE_iff]
  rcases lt_trichotomy (compare_rating a).1 (compare_rating b).1 with h | h | h
  · exact Or.inl (Or.inl h)
  · rcases pyStrLe_total (compare_rating a).2 (compare_rating b).2 with hs | hs
    · exact Or.inl (Or.inr ⟨h, hs⟩)
    · exact Or.inr (Or.inr ⟨h.symm, hs⟩)
  · exact Or.inr (Or.inl h)

instance : IsTrans (String × ℚ × ℚ) keyRel := ⟨keyRel_trans⟩

instance : IsTotal (String × ℚ × ℚ) keyRel := ⟨keyRel_total⟩


theorem fieldD_of_get? {m : Rec} {i : ℕ} {x : String} (h : m.get? i = some x) :
    fieldD m i = x := by
  rw [List.get?_eq_getElem?] at h
  simp [fieldD, List.getD, h]

/-- One step of the closed form of the `actors_max` accumulation, read
off the source's update `max(actors_max.get(actor, 0), float(movie[8]))`. -/
def peakStep (a : String) (acc : ℚ) (m : Rec) : ℚ :=
  if a ∈ pySplitCS (fieldD m 5) then max acc ((pyFloat (fieldD m 8)).getD 0) else acc

/-- The value `actors_max[a]` ends with: a fold of `max` over the critic
ratings of all records of the full input list featuring `a`, seeded with
the `dict.get` default `0`. -/
def specPeak (data : List Rec) (a : String) : ℚ :=
  data.foldl (peakStep a) 0

theorem addMovieActors_apply (actors : List String) (d : String → ℚ) (r : ℚ) (a : String) :
    addMovieActors d actors r a = if a ∈ actors then max (d a) r else d a := by
  induction actors generalizing d with
  | nil => simp [addMovieActors]
  | cons b bs ih =>
    simp only [addMovieActors, List.foldl_cons] at *
    rw [ih (dictUpd d b (max (d b) r))]
    by_cases hab : a = b
    · subst hab
      by_cases hin : a ∈ bs
      · simp [hin, dictUpd, max_assoc]
      · simp [hin, dictUpd]
    · by_cases hin : a ∈ bs
      · simp [hin, dictUpd, hab]
      · simp [hin, dictUpd, hab, List.mem_cons]

theorem buildActorsMax_ok :
    ∀ (ms : List Rec) (d0 d' : String → ℚ), buildActorsMax ms d0 = .ok d' →
      ∀ a, d' a = ms.foldl (peakStep a) (d0 a) := by
  intro ms
  induction ms with
  | nil =>
    intro d0 d' h a
    simp only [buildActorsMax] at h
    cases h
    rfl
  | cons m rest ih =>
    intro d0 d' h a
    simp only [buildActorsMax] at h
    split at h
    · cases h
    rename_i actorsField h5
    split at h
    · cases h
    rename_i ratingField h8
    split at h
    · cases h
    rename_i r hf
    have hrec := ih _ _ h a
    rw [hrec, List.foldl_cons, addMovieActors_apply]
    have e5 : fieldD m 5 = actorsField := fieldD_of_get? h5
    have e8 : fieldD m 8 = ratingField := fieldD_of_get? h8
    congr 1
    simp [peakStep, e5, e8, hf]

/-- The dict `actors_max` as `top_n` builds it (seeded with the empty dict,
i.e. the constant-`0` default function) equals `specPeak`. -/
theorem buildActorsMax_eq_specPeak {data : List Rec} {d : String → ℚ}
    (h : buildActorsMax data (fun _ => 0) = .ok d) : d = specPeak data := by
  funext a
  exact buildActorsMax_ok data _ d h a

/-- The triple `(movie[1], float(movie[8]), sum(actors_values)/len(actors_values))`
built for an included movie, with the `actors_max` dict `d`. -/
def entryOf (d : String → ℚ) (m : Rec) : String × ℚ × ℚ :=
  (fieldD m 1, (pyFloat (fieldD m 8)).getD 0,
    ((pySplitCS (fieldD m 5)).map d).sum / (((pySplitCS (fieldD m 5)).map d).length : ℚ))

theorem scoreMovies_ok (d : String → ℚ) (genre : String) :
    ∀ (ms : List Rec) (es : List (String × ℚ × ℚ)), scoreMovies d genre ms = .ok es →
      es = (ms.filter (genreMatch genre)).map (entryOf d) := by
  intro ms
  induction ms with
  | nil =>
    intro es h
    simp only [scoreMovies] at h
    cases h
    rfl
  | cons m rest ih =>
    intro es h
    simp only [scoreMovies] at h
    split at h
    · cases h
    · rename_i hincl
      have hmatch : genreMatch genre m = false := by
        by_cases hg : genre = ""
        · rw [if_pos hg] at hincl; simp at hincl
        · rw [if_neg hg] at hincl
          rcases h2 : m.get? 2 with _ | g2 <;> rw [h2] at hincl
          · simp at hincl
          · injection hincl with htag
            simp [genreMatch, hg, fieldD_of_get? h2, ← htag]
      rw [List.filter_cons_of_neg (by simp [hmatch])]
      exact ih es h
    · rename_i hincl
      have hmatch : genreMatch genre m = true := by
        by_cases hg : genre = ""
        · simp [genreMatch, hg]
        · rw [if_neg hg] at hincl
          rcases h2 : m.get? 2 with _ | g2 <;> rw [h2] at hincl
          · simp at hincl
          · injection hincl with htag
            simp [genreMatch, hg, fieldD_of_get? h2, ← htag]
      rw [List.filter_cons_of_pos hmatch]
      split at h
      · cases h
      rename_i actorsField h5
      split at h
      · cases h
      rename_i title h1
      split at h
      · cases h
      rename_i ratingField h8
      split at h
      · cases h
      rename_i r hf
      split at h
      · cases h
      rcases hrest : scoreMovies d genre rest with e | es'
      all_goals rw [hrest] at h
      · cases h
      · simp only [Except.map] at h
        cases h
        rw [ih es' hrest, List.map_cons]
        have e5 : fieldD m 5 = actorsField := fieldD_of_get? h5
        have e1 : fieldD m 1 = title := fieldD_of_get? h1
        have e8 : fieldD m 8 = ratingField := fieldD_of_get? h8
        simp [entryOf, e5, e1, e8, hf]

/-- Decomposition of a successful `top_n` call into its phases. -/
theorem top_n_ok_elim {data : List Rec} {genre : String} {n : ℕ} {out : List (String × ℚ)}
    (h : top_n data genre n = .ok out) :
    ∃ (d : String → ℚ) (es : List (String × ℚ × ℚ)),
      buildActorsMax data (fun _ => 0) = .ok d ∧
      scoreMovies d genre data = .ok es ∧
      out = ((List.insertionSort keyRel es).map finalEntry).take
              (if n = 0 then es.length else n) := by
  unfold top_n at h
  rcases hb : buildActorsMax data (fun _ => 0) with e | d
  · rw [hb] at h
    simp only [Except.bind, bind] at h
    cases e <;> simp at h
  · rw [hb] at h
    simp only [Except.bind, bind] at h
    rcases hs : scoreMovies d genre data with e | es
    · rw [hs] at h
      cases e <;> simp at h
    · rw [hs] at h
      simp at h
      exact ⟨d, es, rfl, hs, h.symm⟩

/-- The mean of the peak ratings of a movie's listed actors, the peaks
taken over the full input list `data` (the spec's actor-derived rating,
with `specPeak` in place of the claim's plain maximum). -/
def actorDerived (data : List Rec) (m : Rec) : ℚ :=
  ((pySplitCS (fieldD m 5)).map (specPeak data)).sum /
    (((pySplitCS (fieldD m 5)).map (specPeak data)).length : ℚ)

/-- The ranked entry `top_n` produces for a record `m` of input `data`. -/
def rankedEntryOf (data : List Rec) (m : Rec) : String × ℚ :=
  (fieldD m 1, ((pyFloat (fieldD m 8)).getD 0 + actorDerived data m) / 2)

theorem finalEntry_entryOf (data : List Rec) (m : Rec) :
    finalEntry (entryOf (specPeak data) m) = rankedEntryOf data m := rfl

/-- The ordering the specification asserts for the output of `top_n`:
strictly greater composite score first, and among equal scores, titles
in ascending (code-point lexicographic) order. -/
def rankedOrder (a b : String × ℚ) : Prop :=
  b.2 < a.2 ∨ (a.2 = b.2 ∧ pyStrLe a.1 b.1 = true)

theorem keyRel_finalEntry {x y : String × ℚ × ℚ} (h : keyRel x y) :
    rankedOrder (finalEntry x) (finalEntry y) := by
  unfold keyRel at h
  rw [keyLE_iff] at h
  unfold compare_rating at h
  unfold rankedOrder finalEntry
  rcases h with h | ⟨he, hs⟩
  · left
    dsimp only at h ⊢
    linarith
  · right
    dsimp only at he hs ⊢
    constructor
    · linarith
    · exact hs

/-- Successful phases determine `top_n`'s value. -/
theorem top_n_ok_intro {data : List Rec} {genre : String} (n : ℕ)
    {d : String → ℚ} {es : List (String × ℚ × ℚ)}
    (hb : buildActorsMax data (fun _ => 0) = .ok d)
    (hs : scoreMovies d genre data = .ok es) :
    top_n data genre n
      = .ok (((List.insertionSort keyRel es).map finalEntry).take
              (if n = 0 then es.length else n)) := by
  unfold top_n
  rw [hb]
  simp only [Except.bind, bind]
  rw [hs]
  simp [List.map_take, List.length_insertionSort]

/-- C2: every sequence returned by `top_n` is sorted in descending order
of composite score, with ties of equal score broken by ascending
lexicographic (code-point) order of title. -/
theorem top_n_sorted (data : List Rec) (genre : String) (n : ℕ)
    (out : List (String × ℚ)) (h : top_n data genre n = .ok out) :
    out.Pairwise rankedOrder := by
  obtain ⟨d, es, hb, hs, hout⟩ := top_n_ok_elim h
  subst hout
  apply List.Pairwise.sublist (List.take_sublist _ _)
  rw [List.pairwise_map]
  exact (List.sorted_insertionSort keyRel es).imp keyRel_finalEntry

unseal Rat.add Rat.mul Rat.inv in
/-- C2 witness: two equal-score records come out title-ascending. -/
theorem top_n_sorted_witness :
    List.Pairwise rankedOrder [("A", (7 : ℚ)), ("B", (7 : ℚ))] :=
  top_n_sorted
    [["1", "B", "G", "d", "dir", "X", "2000", "100", "7", "1", "1", "1"],
     ["2", "A", "G", "d", "dir", "X", "2000", "100", "7", "1", "1", "1"]]
    "" 0 [("A", 7), ("B", 7)] (by decide)

/-- The actor peak rating exactly as the claim words it: the maximum
critic rating among the records of the full input list featuring the
actor (and `0` when there is none).  Stated from the spec's words, for
comparison with `specPeak`, which is translated from the source's
dict accumulation and is seeded with the `dict.get` default `0`. -/
def claimActorPeak (data : List Rec) (a : String) : ℚ :=
  match data.filterMap (fun m =>
      if a ∈ pySplitCS (fieldD m 5) then pyFloat (fieldD m 8) else none) with
  | [] => 0
  | r :: rs => rs.foldl max r

unseal Rat.add Rat.mul Rat.inv in
/-- C1 counterexample: on a single record whose critic rating is `-1`,
`top_n` returns the score `-1/2`, while the claim's formula — critic
rating plus the mean of the actors' peak ratings, halved — yields `-1`:
the source seeds each `actors_max` entry with `0` via
`actors_max.get(actor, 0)`, so a peak can never be negative, whereas the
claim's peak is the plain maximum of the featuring records' ratings. -/
theorem actor_peak_seed_counterexample :
    top_n [["0", "T", "G", "d", "dir", "A", "2000", "100", "-1", "1", "1", "1"]] "" 0
      = .ok [("T", -(1 : ℚ)/2)] ∧
    ((pyFloat "-1").getD 0 +
        claimActorPeak [["0", "T", "G", "d", "dir", "A", "2000", "100", "-1", "1", "1", "1"]] "A") / 2
      = -1 ∧
    (-1 : ℚ) < -(1 : ℚ)/2 :=
  ⟨by decide, by decide, by norm_num⟩

/-- C1 (amended): every entry returned by `top_n` is the ranked entry of
some genre-matching record of the input: its score is (critic rating +
mean of the record's actors' peak ratings) / 2, where an actor's peak is
accumulated by `max` over the critic ratings of *all* records of the
full input list featuring that actor — before and independently of
genre filtering — but seeded with the dict-lookup default `0`, so it is
the maximum of `0` and those ratings rather than their plain maximum. -/
theorem top_n_score_formula (data : List Rec) (genre : String) (n : ℕ)
    (out : List (String × ℚ)) (h : top_n data genre n = .ok out) :
    ∀ e ∈ out, ∃ m ∈ data, genreMatch genre m = true ∧ e = rankedEntryOf data m := by
  obtain ⟨d, es, hb, hs, hout⟩ := top_n_ok_elim h
  have hd : d = specPeak data := buildActorsMax_eq_specPeak hb
  have hes : es = (data.filter (genreMatch genre)).map (entryOf d) :=
    scoreMovies_ok d genre data es hs
  subst hout
  intro e he
  have he1 : e ∈ (List.insertionSort keyRel es).map finalEntry := List.take_subset _ _ he
  obtain ⟨x, hx, hxe⟩ := List.mem_map.mp he1
  rw [List.mem_insertionSort] at hx
  rw [hes] at hx
  obtain ⟨m, hm, hmx⟩ := List.mem_map.mp hx
  refine ⟨m, List.mem_of_mem_filter hm, List.of_mem_filter hm, ?_⟩
  rw [← hxe, ← hmx, hd]
  rfl

unseal Rat.add Rat.mul Rat.inv in
/-- C1 witness: a concrete successful call instantiating
`top_n_score_formula`. -/
theorem top_n_score_formula_witness :
    ∃ m ∈ [["0", "T", "G", "d", "dir", "A", "2000", "100", "8", "1", "1", "1"]],
      genreMatch "" m = true ∧
      ("T", (8 : ℚ)) = rankedEntryOf [["0", "T", "G", "d", "dir", "A", "2000", "100", "8", "1", "1", "1"]] m :=
  top_n_score_formula [["0", "T", "G", "d", "dir", "A", "2000", "100", "8", "1", "1", "1"]]
    "" 0 [("T", 8)] (by decide) ("T", 8) (by decide)

/-- The genre condition exactly as the claim words it: the filter is
empty, or the comma-separated filter tag set and the record's
comma-separated genre-tag set share a tag, each tag compared whole and
case-sensitively (the only string comparison is list membership, so no
substring can match). -/
def claimGenreMatch (genre : String) (m : Rec) : Prop :=
  genre = "" ∨ ∃ t ∈ pySplitComma genre, t ∈ pySplitComma (fieldD m 2)

instance (genre : String) (m : Rec) : Decidable (claimGenreMatch genre m) := by
  unfold claimGenreMatch
  infer_instance

theorem genreMatch_iff (genre : String) (m : Rec) :
    genreMatch genre m = true ↔ claimGenreMatch genre m := by
  unfold genreMatch claimGenreMatch tagsIntersect
  simp [List.any_eq_true]

theorem genreMatch_eq_decide (genre : String) (m : Rec) :
    genreMatch genre m = decide (claimGenreMatch genre m) := by
  by_cases hc : claimGenreMatch genre m
  · rw [(genreMatch_iff genre m).mpr hc, decide_eq_true hc]
  · rw [decide_eq_false hc, ← Bool.not_eq_true]
    exact fun ht => hc ((genreMatch_iff genre m).mp ht)

/-- C3: with `n` at its default `0` (no truncation), the output of
`top_n` consists, up to the sort's reordering, of exactly one ranked
entry per record whose genre-tag set intersects the comma-separated
filter tag set (or per record, when the filter is empty), the tags
matched exactly and case-sensitively — never by substring. -/
theorem top_n_genre_filter (data : List Rec) (genre : String) (out : List (String × ℚ))
    (h : top_n data genre 0 = .ok out) :
    out.Perm ((data.filter (fun m => decide (claimGenreMatch genre m))).map
      (rankedEntryOf data)) := by
  obtain ⟨d, es, hb, hs, hout⟩ := top_n_ok_elim h
  have hd : d = specPeak data := buildActorsMax_eq_specPeak hb
  have hes : es = (data.filter (genreMatch genre)).map (entryOf d) :=
    scoreMovies_ok d genre data es hs
  subst hout
  rw [if_pos rfl]
  have hlen : ((List.insertionSort keyRel es).map finalEntry).length = es.length := by
    simp [List.length_insertionSort]
  rw [← hlen, List.take_length]
  refine ((List.perm_insertionSort keyRel es).map finalEntry).trans ?_
  rw [hes, hd, List.map_map]
  have hfilter : data.filter (genreMatch genre)
      = data.filter (fun m => decide (claimGenreMatch genre m)) := by
    apply List.filter_congr
    intro m _
    exact genreMatch_eq_decide genre m
  rw [hfilter]
  exact List.Perm.refl _

unseal Rat.add Rat.mul Rat.inv in
/-- C3 witness: a record tagged only `"Sci-Fi"` is not matched by the
filter `"Fi"`: the call succeeds and returns the empty list, which is a
permutation of the (empty) filtered image. -/
theorem top_n_genre_filter_witness :
    List.Perm ([] : List (String × ℚ))
      (([["1", "T", "Sci-Fi", "d", "dir", "A", "2000", "100", "8", "1", "1", "1"]].filter
          (fun m => decide (claimGenreMatch "Fi" m))).map
        (rankedEntryOf [["1", "T", "Sci-Fi", "d", "dir", "A", "2000", "100", "8", "1", "1", "1"]])) :=
  top_n_genre_filter [["1", "T", "Sci-Fi", "d", "dir", "A", "2000", "100", "8", "1", "1", "1"]]
    "Fi" [] (by decide)

/-- C4: for `n > 0` the result of `top_n` is the first `n` entries of
the full (`n = 0`) sorted sequence, hence has length at most `n`; for
`n = 0` the result contains every genre-matching record — its length is
exactly the number of records passing the genre filter. -/
theorem top_n_truncation (data : List Rec) (genre : String) (n : ℕ)
    (out0 : List (String × ℚ)) (h0 : top_n data genre 0 = .ok out0) (hn : 0 < n) :
    top_n data genre n = .ok (out0.take n) ∧
    (out0.take n).length ≤ n ∧
    out0.length = (data.filter (genreMatch genre)).length := by
  obtain ⟨d, es, hb, hs, hout⟩ := top_n_ok_elim h0
  have hes : es = (data.filter (genreMatch genre)).map (entryOf d) :=
    scoreMovies_ok d genre data es hs
  have hfull : out0 = (List.insertionSort keyRel es).map finalEntry := by
    rw [hout, if_pos rfl]
    have hlen : ((List.insertionSort keyRel es).map finalEntry).length = es.length := by
      simp [List.length_insertionSort]
    rw [← hlen, List.take_length]
  refine ⟨?_, ?_, ?_⟩
  · rw [top_n_ok_intro n hb hs, if_neg (Nat.pos_iff_ne_zero.mp hn), hfull]
  · rw [List.length_take]
    exact min_le_left _ _
  · rw [hfull, hes]
    simp [List.length_insertionSort]

unseal Rat.add Rat.mul Rat.inv in
/-- C4 witness: with two matching records and `n = 1`, the result is the
first entry of the full ranking, of length `1 ≤ 1`, and the full ranking
has one entry per matching record. -/
theorem top_n_truncation_witness :
    top_n [["1", "B", "G", "d", "dir", "X", "2000", "100", "7", "1", "1", "1"],
           ["2", "A", "G", "d", "dir", "X", "2000", "100", "9", "1", "1", "1"]] "G" 1
      = .ok ([("A", (9 : ℚ)), ("B", (8 : ℚ))].take 1) ∧
    ([("A", (9 : ℚ)), ("B", (8 : ℚ))].take 1).length ≤ 1 ∧
    [("A", (9 : ℚ)), ("B", (8 : ℚ))].length
      = ([["1", "B", "G", "d", "dir", "X", "2000", "100", "7", "1", "1", "1"],
          ["2", "A", "G", "d", "dir", "X", "2000", "100", "9", "1", "1", "1"]].filter
          (genreMatch "G")).length :=
  top_n_truncation
    [["1", "B", "G", "d", "dir", "X", "2000", "100", "7", "1", "1", "1"],
     ["2", "A", "G", "d", "dir", "X", "2000", "100", "9", "1", "1", "1"]]
    "G" 1 [("A", 9), ("B", 8)] (by decide) (by decide)

/-- The (parsed) year of a record: field 6 through Python `int`. -/
def recYear (r : Rec) : ℤ := (pyInt (fieldD r 6)).getD 0

/-- The year filter the loop of `read_file` applies: keep a record iff
its year is at least the floor. -/
def yearKeep (year : ℤ) (r : Rec) : Bool := decide (year ≤ recYear r)

theorem readLoop_ok (year : ℤ) :
    ∀ (ls : List String) (rs : List Rec), readLoop year ls = .ok rs →
      rs = (ls.map parseLine).filter (yearKeep year) := by
  intro ls
  induction ls with
  | nil =>
    intro rs h
    simp only [readLoop] at h
    cases h
    rfl
  | cons l rest ih =>
    intro rs h
    simp only [readLoop] at h
    split at h
    · cases h
    rename_i filmYear h6
    split at h
    · cases h
    rename_i hlen
    split at h
    · cases h
    rename_i fy hfy
    have hyear : recYear (parseLine l) = fy := by
      rw [recYear, fieldD_of_get? h6, hfy, Option.getD_some]
    split at h
    · rename_i hlt
      have hpred : ¬ (yearKeep year (parseLine l) = true) := by
        simp [yearKeep, hyear]
        omega
      rw [List.map_cons, List.filter_cons_of_neg hpred]
      exact ih rs h
    · rename_i hge
      rcases hrest : readLoop year rest with e | rs'
      all_goals rw [hrest] at h
      · cases h
      · simp only [Except.map] at h
        cases h
        have hpred : yearKeep year (parseLine l) = true := by
          simp [yearKeep, hyear]
          omega
        rw [List.map_cons, List.filter_cons_of_pos hpred, ih rs' hrest]

/-- C5: a successful `read_file` returns exactly the parsed data lines
whose year is at least the floor, in file order: every returned record
has year ≥ `year`, the ones below the floor are dropped, and the result
is a sublist (hence order-preserving) of the parsed file. -/
theorem read_file_year_filter (fileLines : List String) (year : ℤ) (rs : List Rec)
    (hy : 0 ≤ year) (h : read_file fileLines year = .ok rs) :
    rs = ((fileLines.drop 1).map parseLine).filter (yearKeep year) ∧
    (∀ r ∈ rs, year ≤ recYear r) ∧
    rs.Sublist ((fileLines.drop 1).map parseLine) := by
  unfold read_file at h
  rw [if_neg (not_lt.mpr hy)] at h
  rcases hloop : readLoop year (fileLines.drop 1) with e | rs'
  all_goals rw [hloop] at h
  · cases e <;> cases h
  · cases h
    have heq := readLoop_ok year (fileLines.drop 1) _ hloop
    refine ⟨heq, ?_, ?_⟩
    · intro r hr
      rw [heq] at hr
      have hk := List.of_mem_filter hr
      rw [yearKeep] at hk
      exact of_decide_eq_true hk
    · rw [heq]
      exact List.filter_sublist _

unseal Rat.add Rat.mul Rat.inv in
/-- C5 witness: with floor 2014, the 2010 record is dropped and the 2014
record is kept, in file order. -/
theorem read_file_year_filter_witness :
    [["6", "U", "G", "d", "dir", "A", "2014", "1", "8", "1", "1", "1"]]
      = (((["head", "5;T;G;d;dir;A;2010;1;8;1;1;1", "6;U;G;d;dir;A;2014;1;8;1;1;1"].drop 1).map
          parseLine).filter (yearKeep 2014)) ∧
    (∀ r ∈ [["6", "U", "G", "d", "dir", "A", "2014", "1", "8", "1", "1", "1"]],
      (2014 : ℤ) ≤ recYear r) ∧
    List.Sublist [["6", "U", "G", "d", "dir", "A", "2014", "1", "8", "1", "1", "1"]]
      ((["head", "5;T;G;d;dir;A;2010;1;8;1;1;1", "6;U;G;d;dir;A;2014;1;8;1;1;1"].drop 1).map
        parseLine) :=
  read_file_year_filter
    ["head", "5;T;G;d;dir;A;2010;1;8;1;1;1", "6;U;G;d;dir;A;2014;1;8;1;1;1"] 2014
    [["6", "U", "G", "d", "dir", "A", "2014", "1", "8", "1", "1", "1"]]
    (by decide) (by decide)

/-- C9: a negative year floor makes `read_file` return the distinguished
failure outcome `None` before reading anything; no records are produced
and the call is not a silent no-op. -/
theorem read_file_negative_year (fileLines : List String) (year : ℤ) (h : year < 0) :
    read_file fileLines year = .retNone := by
  unfold read_file
  rw [if_pos h]

/-- C9 witness. -/
theorem read_file_negative_year_witness :
    read_file ["head", "5;T;G;d;dir;A;2010;1;8;1;1;1"] (-1) = .retNone :=
  read_file_negative_year ["head", "5;T;G;d;dir;A;2010;1;8;1;1;1"] (-1) (by decide)

/-- C6: a data line with fewer than 7 fields (here `"1;2"`) does not
make `read_file` return the failure outcome `None`: `line[6]` is read
*before* the field-count check, so the call dies with an uncaught
`IndexError` instead — against the claim's "the whole call returns the
failure outcome", while lines with 7 to 11 or 13+ fields do return
`None`. -/
theorem read_file_short_line_crash :
    read_file ["head", "1;2"] 0 = .uncaught .indexError ∧
    read_file ["head", "1;2;3;4;5;6;7;8"] 0 = .retNone :=
  ⟨by decide, by decide⟩

/-- C7: neither function is exception-free: `top_n` lets the
`ValueError` of `float(movie[8])` escape (its `except` clause only
catches `IndexError` and `ZeroDivisionError`), and `read_file` lets the
`IndexError` of `line[6]` escape (its `except` clauses only catch
`FileNotFoundError` and `ValueError`). -/
theorem uncaught_exception_crash :
    top_n [["0", "T", "G", "d", "dir", "A", "2000", "100", "bad", "1", "1", "1"]] "" 0
      = .uncaught .valueError ∧
    read_file ["head", "7;8"] 0 = .uncaught .indexError :=
  ⟨by decide, by decide⟩

unseal Rat.add Rat.mul Rat.inv in
/-- C8 counterexample: a record whose actor field is empty — the only
way an actor list can be "empty" — is *not* treated as a data error:
`"".split(", ")` yields the one-element list `[""]`, the empty string is
scored as an actor name, and the record is ranked normally (here with
score `(8 + 8)/2 = 8`); the call neither skips the record nor fails. -/
theorem empty_actor_field_counterexample :
    top_n [["0", "T", "G", "d", "dir", "", "2000", "100", "8", "1", "1", "1"]] "" 0
      = .ok [("T", (8 : ℚ))] :=
  by decide

theorem split2_length_pos (a b : Char) : ∀ cs : List Char, 0 < (split2 a b cs).length := by
  intro cs
  match cs with
  | [] => simp [split2]
  | [c] => simp [split2]
  | c :: d :: rest =>
    rw [split2]
    split
    · simp
    · split <;> simp

/-- C8 (amended): splitting any actor field on `", "` yields at least
one (possibly empty-string) name, so the divisor of the actor mean is
never zero and the division-by-zero case is unreachable; were a
`ZeroDivisionError` raised it would be caught and turn the call into the
`None` failure outcome, so the only exception `top_n` can ever propagate
uncaught is the `ValueError` of a non-numeric rating field. -/
theorem no_division_by_zero :
    (∀ s : String, 0 < (pySplitCS s).length) ∧
    (∀ (data : List Rec) (genre : String) (n : ℕ) (e : PyErr),
      top_n data genre n = .uncaught e → e = .valueError) := by
  constructor
  · intro s
    rw [pySplitCS, List.length_map]
    exact split2_length_pos ',' ' ' s.data
  · intro data genre n e h
    unfold top_n at h
    rcases hb : (do
        let d ← buildActorsMax data (fun _ => 0)
        scoreMovies d genre data : Except PyErr (List (String × ℚ × ℚ))) with e' | movies
    all_goals rw [hb] at h
    · cases e'
      · injection h with he
        exact he.symm
      · cases h
      · cases h
    · cases h

unseal Rat.add Rat.mul Rat.inv in
/-- C8 witness: instantiating both parts of `no_division_by_zero` — the
empty actor field still splits into one name, and the one uncaught
escape observed concretely is indeed the rating `ValueError`. -/
theorem no_division_by_zero_witness :
    0 < (pySplitCS "").length ∧ PyErr.valueError = PyErr.valueError :=
  ⟨no_division_by_zero.1 "",
   no_division_by_zero.2 [["0", "T", "G", "d", "dir", "A", "2000", "100", "bad", "1", "1", "1"]]
     "" 0 .valueError (by decide)⟩

/-- Decimal digits of `n`, most significant first, with a fuel bound
(`n + 1` suffices since a number has at most `n + 1` digits). -/
def natDigits : ℕ → ℕ → List Char
  | 0, _ => []
  | fuel + 1, n =>
    if n < 10 then [Nat.digitChar n]
    else natDigits fuel (n / 10) ++ [Nat.digitChar (n % 10)]

/-- Decimal string of a natural number. -/
def natStr (n : ℕ) : String := String.mk (natDigits (n + 1) n)

/-- The value `10 * q` rounded to the nearest integer, ties to even — the rounding
Python's `format(…, '.1f')` applies (idealised over `ℚ`); for `q ≥ 0`. -/
def rhe10 (q : ℚ) : ℕ :=
  let x : ℚ := 10 * q
  let f : ℚ := x - ⌊x⌋
  if f < 1/2 then (⌊x⌋).toNat
  else if 1/2 < f then (⌊x⌋).toNat + 1
  else if ⌊x⌋ % 2 = 0 then (⌊x⌋).toNat else (⌊x⌋).toNat + 1

/-- Python `f"{q:.1f}"`: the value rounded to one decimal place
(half to even), one digit after the point, a leading minus sign on
negative values. -/
def fmt1 (q : ℚ) : String :=
  if q < 0 then "-" ++ natStr (rhe10 (-q) / 10) ++ "." ++ natStr (rhe10 (-q) % 10)
  else natStr (rhe10 q / 10) ++ "." ++ natStr (rhe10 q % 10)

/-- One output line of `write_file`: `f"{title}, {rating:.1f}"`
(movie_service.py line 177). -/
def fmtEntry (e : String × ℚ) : String := e.1 ++ ", " ++ fmt1 e.2

/-- Python `'\n'.join(...)` (movie_service.py line 179). -/
def joinNL : List String → String
  | [] => ""
  | [s] => s
  | s :: rest => s ++ "\n" ++ joinNL rest

/-- The function `movie_service.write_file` (lines 144-181), modelled as the content
written to the output file: the formatted entries joined by newlines,
with no trailing newline or other metadata.  (The input-shape and
`.txt`-suffix validations and `IOError` reporting concern arguments and
I/O outside the model; on the success path the content is exactly
this.) -/
def write_file (top : List (String × ℚ)) : String :=
  joinNL (top.map fmtEntry)

/-- Reading a text file back line by line (the spec's round-trip):
iterating a file yields its newline-separated lines, and none at all for
empty content. -/
def readLinesOf (content : String) : List String :=
  if content = "" then [] else (split1 '\n' content.data).map (fun g => String.mk g)

theorem natDigits_no_newline : ∀ (fuel n : ℕ), '\n' ∉ natDigits fuel n := by
  intro fuel
  induction fuel with
  | zero => intro n; simp [natDigits]
  | succ fuel ih =>
    intro n
    rw [natDigits]
    have hdig : ∀ d, d < 10 → Nat.digitChar d ≠ '\n' := by decide
    split
    · rename_i hlt
      simp only [List.mem_singleton]
      exact fun hc => (hdig n hlt) hc.symm
    · intro hmem
      rcases List.mem_append.mp hmem with hmem | hmem
      · exact ih _ hmem
      · have := List.mem_singleton.mp hmem
        exact hdig (n % 10) (Nat.mod_lt _ (by omega)) this.symm

theorem natStr_no_newline (n : ℕ) : '\n' ∉ (natStr n).data :=
  natDigits_no_newline (n + 1) n

theorem fmt1_no_newline (q : ℚ) : '\n' ∉ (fmt1 q).data := by
  unfold fmt1
  split <;>
    simp [String.data_append, String.mk, natStr_no_newline, List.mem_append]

theorem fmtEntry_data (e : String × ℚ) :
    (fmtEntry e).data = e.1.data ++ ',' :: ' ' :: (fmt1 e.2).data := by
  unfold fmtEntry
  simp [String.data_append]

theorem fmtEntry_no_newline {e : String × ℚ} (h : '\n' ∉ e.1.data) :
    '\n' ∉ (fmtEntry e).data := by
  rw [fmtEntry_data]
  intro hmem
  rcases List.mem_append.mp hmem with hm | hm
  · exact h hm
  · rcases List.mem_cons.mp hm with hc | hm2
    · exact absurd hc (by decide)
    rcases List.mem_cons.mp hm2 with hc | hm3
    · exact absurd hc (by decide)
    exact fmt1_no_newline e.2 hm3

theorem fmtEntry_ne_nil (e : String × ℚ) : (fmtEntry e).data ≠ [] := by
  rw [fmtEntry_data]
  simp

theorem split1_of_no_sep {sep : Char} : ∀ {cs : List Char}, sep ∉ cs →
    split1 sep cs = [cs] := by
  intro cs
  induction cs with
  | nil => intro _; rfl
  | cons c rest ih =>
    intro h
    have hcs : ¬ c = sep := fun hc => h (by rw [← hc]; exact List.mem_cons_self _ _)
    rw [split1, if_neg hcs, ih (fun hm => h (List.mem_cons_of_mem c hm))]

theorem split1_append_sep {sep : Char} : ∀ {cs : List Char} (t : List Char), sep ∉ cs →
    split1 sep (cs ++ sep :: t) = cs :: split1 sep t := by
  intro cs
  induction cs with
  | nil =>
    intro t _
    simp [split1]
  | cons c rest ih =>
    intro t h
    have hcs : ¬ c = sep := fun hc => h (by rw [← hc]; exact List.mem_cons_self _ _)
    rw [List.cons_append, split1, if_neg hcs,
      ih t (fun hm => h (List.mem_cons_of_mem c hm))]

theorem String.mk_data (s : String) : String.mk s.data = s := rfl

theorem joinNL_cons_cons (s s' : String) (rest : List String) :
    joinNL (s :: s' :: rest) = s ++ "\n" ++ joinNL (s' :: rest) := rfl

theorem readLinesOf_join : ∀ (ss : List String),
    (∀ s ∈ ss, s.data ≠ [] ∧ '\n' ∉ s.data) → readLinesOf (joinNL ss) = ss := by
  intro ss
  induction ss with
  | nil => intro _; rfl
  | cons s rest ih =>
    intro h
    obtain ⟨hne, hnl⟩ := h s (List.mem_cons_self s rest)
    cases rest with
    | nil =>
      have hsne : joinNL [s] ≠ "" := by
        show s ≠ ""
        intro hc
        exact hne (congrArg String.data hc)
      rw [readLinesOf, if_neg hsne]
      show (split1 '\n' s.data).map (fun g => String.mk g) = [s]
      rw [split1_of_no_sep hnl]
      simp [String.mk_data]
    | cons s' rest' =>
      have hrest := ih (fun t ht => h t (List.mem_cons_of_mem s ht))
      have hdata : (joinNL (s :: s' :: rest')).data
          = s.data ++ '\n' :: (joinNL (s' :: rest')).data := by
        rw [joinNL_cons_cons]
        simp [String.data_append]
      have hne2 : joinNL (s :: s' :: rest') ≠ "" := by
        intro hc
        have := congrArg String.data hc
        rw [hdata] at this
        simp at this
      rw [readLinesOf, if_neg hne2, hdata, split1_append_sep _ hnl]
      have hjne : joinNL (s' :: rest') ≠ "" := by
        obtain ⟨hne', hnl'⟩ := h s' (List.mem_cons_of_mem s (List.mem_cons_self s' rest'))
        cases rest' with
        | nil =>
          show s' ≠ ""
          intro hc
          exact hne' (congrArg String.data hc)
        | cons s'' rest'' =>
          intro hc
          have := congrArg String.data hc
          rw [joinNL_cons_cons] at this
          simp [String.data_append] at this
      rw [readLinesOf, if_neg hjne] at hrest
      rw [List.map_cons, String.mk_data]
      rw [hrest]

/-- C10: on any ranked-entry list whose titles are newline-free — all
entries the ranker can produce are, since record fields come from
splitting single file lines — the content `write_file` writes consists
of exactly one line per entry, in order, of the form
`"<title>, <rating to one decimal place>"`, newline-separated with no
trailing metadata: reading the file back line by line reproduces the
formatted entries in order. -/
theorem write_file_round_trip (top : List (String × ℚ))
    (h : ∀ e ∈ top, '\n' ∉ e.1.data) :
    readLinesOf (write_file top) = top.map fmtEntry := by
  unfold write_file
  apply readLinesOf_join
  intro s hs
  obtain ⟨e, he, hes⟩ := List.mem_map.mp hs
  subst hes
  exact ⟨fmtEntry_ne_nil e, fmtEntry_no_newline (h e he)⟩

unseal Rat.add Rat.mul Rat.inv Rat.sub in
/-- C10 witness: a concrete two-entry list round-trips, and the
formatted lines are literally `"<title>, <rating to one decimal>"`. -/
theorem write_file_round_trip_witness :
    readLinesOf (write_file [("The Dark Knight", 9), ("Inception", (44 : ℚ)/5)])
      = [("The Dark Knight", (9 : ℚ)), ("Inception", (44 : ℚ)/5)].map fmtEntry ∧
    [("The Dark Knight", (9 : ℚ)), ("Inception", (44 : ℚ)/5)].map fmtEntry
      = ["The Dark Knight, 9.0", "Inception, 8.8"] :=
  ⟨write_file_round_trip [("The Dark Knight", 9), ("Inception", (44 : ℚ)/5)] (by decide),
   by decide⟩
